import Mathlib

/-!
Verification of the task-queue pipeline of the website-expander repository.

The Lean definitions below are shallow embeddings of the Python source:
  - `TaskStatus`, `Task`               from src/models/task.py
  - the status maps and `QueueManager` operations
                                       from src/utils/queue_manager.py
  - `upsertTasks` (the bulk task-queue initialization)
                                       from scripts/init_data.py (create_task_queue)
  - the JSON-file queue operations and the batch driver
                                       from ai_agents/orchestrator/orchestrator_agent.py

Database state is a list of rows in table order; wall-clock timestamps are
`Nat` parameters; a lost database connection is an explicit `Bool` parameter
on the operations that open one.
-/

namespace WebsiteExpander

/-- Application status vocabulary: the `TaskStatus` enum of src/models/task.py. -/
inductive TaskStatus where
  | pending
  | in_progress
  | processing
  | seo_complete
  | content_complete
  | assembly_complete
  | published
  | failed
  | error
  deriving DecidableEq, Repr

/-- The `.value` string of each `TaskStatus` member. -/
def TaskStatus.value : TaskStatus → String
  | .pending => "pending"
  | .in_progress => "in_progress"
  | .processing => "processing"
  | .seo_complete => "seo_complete"
  | .content_complete => "content_complete"
  | .assembly_complete => "assembly_complete"
  | .published => "published"
  | .failed => "failed"
  | .error => "error"

/-- The Python constructor call `TaskStatus(s)`: `some` member on a valid value
string, `none` where the Python call would raise `ValueError`. -/
def TaskStatus.ofValue (s : String) : Option TaskStatus :=
  if s = "pending" then some .pending
  else if s = "in_progress" then some .in_progress
  else if s = "processing" then some .processing
  else if s = "seo_complete" then some .seo_complete
  else if s = "content_complete" then some .content_complete
  else if s = "assembly_complete" then some .assembly_complete
  else if s = "published" then some .published
  else if s = "failed" then some .failed
  else if s = "error" then some .error
  else none

/-- `PYTHON_TO_DB_STATUS_MAP.get s` of queue_manager.py: the three renamed
stage-checkpoint values; every other key is absent. -/
def pythonToDbStatusMap (s : String) : Option String :=
  if s = "seo_complete" then some "seo_research_complete"
  else if s = "content_complete" then some "content_generation_complete"
  else if s = "assembly_complete" then some "page_assembly_complete"
  else none

/-- `DB_TO_PYTHON_STATUS_MAP.get s`: the inverse of the three-entry map. -/
def dbToPythonStatusMap (s : String) : Option String :=
  if s = "seo_research_complete" then some "seo_complete"
  else if s = "content_generation_complete" then some "content_complete"
  else if s = "page_assembly_complete" then some "assembly_complete"
  else none

/-- Forward status translation as performed by `QueueManager.update_task_status`
(and `add_task`): `db_status = PYTHON_TO_DB_STATUS_MAP.get(v, v)`, then the
special case mapping the application-only value `processing` to `in_progress`. -/
def toPersisted (s : TaskStatus) : String :=
  let v := s.value
  let dbStatus := (pythonToDbStatusMap v).getD v
  if v = "processing" then "in_progress" else dbStatus

/-- Reverse status translation as performed by `QueueManager._map_row_to_task`:
`DB_TO_PYTHON_STATUS_MAP.get(db, db)` followed by `TaskStatus(...)`, falling
back to `TaskStatus.ERROR` where the constructor would raise. -/
def fromPersisted (dbStatus : String) : TaskStatus :=
  let pyStr := (dbToPythonStatusMap dbStatus).getD dbStatus
  (TaskStatus.ofValue pyStr).getD .error

/-- The twelve strings `fromPersisted` recognizes: the nine application value
strings plus the three renamed persisted checkpoint strings. -/
def recognizedDbStrings : List String :=
  ["pending", "in_progress", "processing", "seo_complete", "content_complete",
   "assembly_complete", "published", "failed", "error",
   "seo_research_complete", "content_generation_complete", "page_assembly_complete"]

/-- One row of the `tasks` table (schema used by queue_manager.py and
init_data.py; timestamps are abstract clock values). -/
structure DbRow where
  task_id : String
  service_id : String
  zip_code : String
  city : Option String
  state : Option String
  status : String
  error_message : Option String
  published_url : Option String
  created_at : Nat
  updated_at : Nat
  completed_at : Option Nat
  deriving DecidableEq, Repr

/-- The `tasks` table, in physical row order. -/
abbrev Db := List DbRow

/-- The `Task` Pydantic model of src/models/task.py (fields populated by
`_map_row_to_task`). -/
structure Task where
  task_id : String
  service_id : String
  zip : String
  city : Option String
  state : Option String
  status : TaskStatus
  created_at : Option Nat
  updated_at : Option Nat
  completed_at : Option Nat
  error_message : Option String
  url : Option String
  deriving DecidableEq, Repr

/-- `QueueManager._map_row_to_task`: field renaming plus the reverse status
translation; `completed_at` is not populated and defaults to `None`. -/
def mapRowToTask (r : DbRow) : Task :=
  { task_id := r.task_id
    service_id := r.service_id
    zip := r.zip_code
    city := r.city
    state := r.state
    status := fromPersisted r.status
    created_at := some r.created_at
    updated_at := some r.updated_at
    completed_at := none
    error_message := r.error_message
    url := r.published_url }

/-- The row-level `WHERE` condition of the claim statement in
`QueueManager.mark_tasks_in_progress`:
`task_id = ANY(ids) AND status = 'pending'`. -/
def claimCondition (ids : List String) (r : DbRow) : Bool :=
  ids.contains r.task_id && r.status == "pending"

/-- The `SET` clause of the claim statement: `status = 'in_progress',
updated_at = now`. -/
def claimUpdate (now : Nat) (r : DbRow) : DbRow :=
  { r with status := "in_progress", updated_at := now }

/-- `QueueManager.mark_tasks_in_progress`: one conditional `UPDATE ...
WHERE task_id = ANY(%s) AND status = 'pending' RETURNING *`, executed
atomically by the store.  Returns the rows the write applied to (the
`RETURNING` set) together with the table afterwards. -/
def markTasksInProgress (db : Db) (ids : List String) (now : Nat) :
    List DbRow × Db :=
  ((db.filter (claimCondition ids)).map (claimUpdate now),
   db.map (fun r => if claimCondition ids r then claimUpdate now r else r))

/-- The row set of `SELECT * FROM tasks WHERE status = %s [LIMIT n]` in table
order, as issued by `QueueManager.get_tasks_by_status`. -/
def selectByDbStatus (db : Db) (dbStatus : String) (limit : Option Nat) :
    List DbRow :=
  match limit with
  | some n => (db.filter (fun r => r.status == dbStatus)).take n
  | none => db.filter (fun r => r.status == dbStatus)

/-- `QueueManager.get_tasks_by_status`: returns `[]` when no connection can be
opened, returns `[]` without querying for the application-only `processing`
status, and otherwise maps the selected rows to `Task` values. -/
def getTasksByStatus (connAvailable : Bool) (db : Db) (status : TaskStatus)
    (limit : Option Nat) : List Task :=
  if !connAvailable then []
  else
    let v := status.value
    let dbStatus := (pythonToDbStatusMap v).getD v
    if v = "processing" then []
    else (selectByDbStatus db dbStatus limit).map mapRowToTask

/-- `QueueManager.get_pending_tasks`. -/
def getPendingTasks (connAvailable : Bool) (db : Db) (limit : Option Nat) :
    List Task :=
  getTasksByStatus connAvailable db .pending limit

/-- The `SET` clause built by `QueueManager.update_task_status`: always
`status` and `updated_at`; `error_message` and `published_url` only when the
corresponding argument was provided.  `completed_at` is not in the clause. -/
def statusUpdateRow (dbStatus : String) (errorMessage url : Option String)
    (now : Nat) (r : DbRow) : DbRow :=
  { r with
    status := dbStatus
    updated_at := now
    error_message := errorMessage.or r.error_message
    published_url := url.or r.published_url }

/-- `QueueManager.update_task_status`: `UPDATE tasks SET ... WHERE task_id = %s
RETURNING *` followed by `fetchone()`; returns the first updated row (or
`none` when no row matched, logged as not found) and the table afterwards.
Returns `(none, db)` when no connection can be opened. -/
def updateTaskStatus (connAvailable : Bool) (db : Db) (taskId : String)
    (status : TaskStatus) (errorMessage url : Option String) (now : Nat) :
    Option DbRow × Db :=
  if !connAvailable then (none, db)
  else
    let dbStatus := toPersisted status
    let upd := statusUpdateRow dbStatus errorMessage url now
    (((db.filter (fun r => r.task_id == taskId)).map upd).head?,
     db.map (fun r => if r.task_id == taskId then upd r else r))

/-- `QueueManager.get_task_by_id`: returns `none` both when no connection can
be opened and when `fetchone()` finds no row for the id. -/
def getTaskById (connAvailable : Bool) (db : Db) (taskId : String) :
    Option Task :=
  if !connAvailable then none
  else (db.find? (fun r => r.task_id == taskId)).map mapRowToTask

/-- One record of the `VALUES` list built by `create_task_queue` in
scripts/init_data.py. -/
structure TaskInsertRecord where
  task_id : String
  service_id : String
  zip_code : String
  city : Option String
  state : Option String
  status : String
  deriving DecidableEq, Repr

/-- The fresh row inserted for a record (`created_at`/`updated_at` take the
column defaults, `completed_at`, `error_message`, `published_url` are null). -/
def newRowOfRecord (rec : TaskInsertRecord) (now : Nat) : DbRow :=
  { task_id := rec.task_id
    service_id := rec.service_id
    zip_code := rec.zip_code
    city := rec.city
    state := rec.state
    status := rec.status
    error_message := none
    published_url := none
    created_at := now
    updated_at := now
    completed_at := none }

/-- One record of `INSERT INTO tasks ... ON CONFLICT (task_id) DO NOTHING`:
a record whose `task_id` already has a row is skipped entirely, otherwise a
fresh row is appended. -/
def upsertStep (now : Nat) (acc : Db) (rec : TaskInsertRecord) : Db :=
  if acc.any (fun r => r.task_id == rec.task_id) then acc
  else acc ++ [newRowOfRecord rec now]

/-- The bulk initialization insert of `create_task_queue`
(`ON CONFLICT (task_id) DO NOTHING` over the whole record list). -/
def upsertTasks (db : Db) (recs : List TaskInsertRecord) (now : Nat) : Db :=
  recs.foldl (upsertStep now) db

/-- The cross-product record list `create_task_queue` builds from the active
locations and the services (`task_id = service_id ++ "_" ++ zip_code`, status
`pending`). -/
def buildTaskRecords (services : List String)
    (locations : List (String × Option String × Option String)) :
    List TaskInsertRecord :=
  services.flatMap (fun serviceId =>
    locations.map (fun loc =>
      { task_id := serviceId ++ "_" ++ loc.1
        service_id := serviceId
        zip_code := loc.1
        city := loc.2.1
        state := loc.2.2
        status := "pending" }))

/-- One entry of the orchestrator's JSON task queue file
(ai_agents/orchestrator/orchestrator_agent.py), with the fields the
orchestrator reads or writes. -/
structure JsonTask where
  task_id : String
  status : String
  updated_at : Nat
  result : Option String
  deriving DecidableEq, Repr

/-- The orchestrator's JSON queue file contents. -/
abbrev JsonQueue := List JsonTask

/-- The loop body of `OrchestratorAgent.get_next_pending_tasks`: walk the
loaded queue, and while fewer than `remaining` tasks have been collected,
switch each `pending` task to `in_progress` in place and collect it. -/
def claimPendingJson (now : Nat) : JsonQueue → Nat → List JsonTask × JsonQueue
  | [], _ => ([], [])
  | t :: rest, remaining =>
    if t.status == "pending" && decide (0 < remaining) then
      let t' := { t with status := "in_progress", updated_at := now }
      let (claimed, q) := claimPendingJson now rest (remaining - 1)
      (t' :: claimed, t' :: q)
    else
      let (claimed, q) := claimPendingJson now rest remaining
      (claimed, t :: q)

/-- `OrchestratorAgent.get_next_pending_tasks`: load the queue file (the
`JsonQueue` argument is the state read at entry), mark up to `limit` pending
tasks in progress in application code, save the whole queue back (the second
component overwrites the file), and return the claimed tasks. -/
def getNextPendingTasks (loaded : JsonQueue) (limit : Nat) (now : Nat) :
    List JsonTask × JsonQueue :=
  claimPendingJson now loaded limit

/-- `OrchestratorAgent.update_task_status`: update the first queue entry with
the given id (the Python loop `break`s after the first match), setting the
status, the timestamp, and — when a result payload is passed — the result. -/
def updateTaskStatusJson (now : Nat) (q : JsonQueue) (taskId status : String)
    (result : Option String) : JsonQueue :=
  match q with
  | [] => []
  | t :: rest =>
    if t.task_id == taskId then
      { t with status := status, updated_at := now,
               result := result.or t.result } :: rest
    else t :: updateTaskStatusJson now rest taskId status result

/-- Whether `pat` occurs at the start of `s` (character lists). -/
def startsWithChars : List Char → List Char → Bool
  | _, [] => true
  | [], _ :: _ => false
  | c :: cs, p :: ps => c == p && startsWithChars cs ps

/-- Whether `pat` occurs anywhere in `s` (character lists). -/
def hasPattern : List Char → List Char → Bool
  | [], pat => startsWithChars [] pat
  | c :: cs, pat => startsWithChars (c :: cs) pat || hasPattern cs pat

/-- The Python membership test `pat in s` on strings. -/
def containsText (s pat : String) : Bool :=
  hasPattern s.data pat.data

/-- The Python `s.lower()` call: lower-case every character. -/
def lowerString (s : String) : String :=
  ⟨s.data.map Char.toLower⟩

/-- What one pipeline run's interaction with the runner amounts to in
`OrchestratorAgent.process_task`: the final-response text, an exception
escaping the `async for`, or completion without a final response. -/
inductive StageOutcome where
  | finalResponse (text : String)
  | raises (msg : String)
  | noFinal
  deriving DecidableEq, Repr

/-- The result dict `process_task` returns. -/
structure TaskRunResult where
  status : String
  message : Option String
  error : Option String
  deriving DecidableEq, Repr, Inhabited

/-- `OrchestratorAgent.process_task`, which wraps the whole run in
`try/except Exception`: an exception yields `status = "error"` with the
message (contained at the coordinator boundary — the function returns a
result, it never re-raises); a final response whose lower-cased text contains
"successfully completed" yields `status = "completed"`, any other final
response yields `status = "failed"` carrying the response text; without a
final response the initial `{"status": "processing"}` dict is returned. -/
def processTask (o : StageOutcome) : TaskRunResult :=
  match o with
  | .raises msg => { status := "error", message := none, error := some msg }
  | .noFinal => { status := "processing", message := none, error := none }
  | .finalResponse t =>
    if containsText (lowerString t) "successfully completed" then
      { status := "completed", message := some t, error := none }
    else
      { status := "failed", message := some t, error := none }

/-- One flush of gathered results inside `OrchestratorAgent.start_process`:
result `i` of the chunk is persisted for `pending_tasks[base + i]` — the
mid-loop flush passes `base = 0`, the trailing flush passes the offset
`len(pending_tasks) - len(tasks)`. -/
def persistChunk (allIds : List String) (chunk : List TaskRunResult)
    (base : Nat) : List (String × String) :=
  (List.range chunk.length).map
    (fun i => (allIds.getD (base + i) "", (chunk.getD i default).status))

/-- The dispatch loop of `start_process` over one claimed batch: coroutines
accumulate in `inflight`; once `concurrent_tasks ≤ len(inflight)` the group is
awaited and flushed with `pending_tasks[i]` (base 0), and any trailing group
is flushed with the offset base.  Produces the list of
`update_task_status(task_id, result.status)` calls in order. -/
def driverFlushLoop (ids : List String) (c : Nat) (n : Nat) :
    List TaskRunResult → List TaskRunResult → List (String × String)
  | inflight, [] => persistChunk ids inflight (n - inflight.length)
  | inflight, r :: rest =>
    let inflight' := inflight ++ [r]
    if c ≤ inflight'.length then
      persistChunk ids inflight' 0 ++ driverFlushLoop ids c n [] rest
    else
      driverFlushLoop ids c n inflight' rest

/-- The result-persistence calls one batch iteration of
`OrchestratorAgent.start_process` makes, given the claimed task ids and the
run result of each (in claim order), under concurrency cap `c`. -/
def runBatchUpdates (ids : List String) (results : List TaskRunResult)
    (c : Nat) : List (String × String) :=
  driverFlushLoop ids c ids.length [] results

/-- Whether some row of the table carries the given task id
(`acc.any` in `upsertStep`). -/
def dbHasId (db : Db) (id : String) : Bool :=
  db.any (fun r => r.task_id == id)

/-- A concrete pending row, task id `"t" ++ i`. -/
def poolRow (i : Nat) : DbRow :=
  { task_id := "t" ++ toString i, service_id := "svc", zip_code := toString i,
    city := none, state := none, status := "pending", error_message := none,
    published_url := none, created_at := 0, updated_at := 0,
    completed_at := none }

/-- A fixed pool of 15 pending tasks (the scenario of the spec's concurrency
property). -/
def pool15 : Db := (List.range 15).map poolRow

/-- The candidate ids a claimer obtains from
`get_pending_tasks(limit=10)` against `pool15`: the selection query is
repeatable, so two claimers reading the same table state obtain the same
ten candidates. -/
def sel10 : List String :=
  (selectByDbStatus pool15 "pending" (some 10)).map (fun r => r.task_id)

/-- A two-row table with tasks t1 and t2 pending. -/
def dbTwo : Db := [poolRow 1, poolRow 2]

/-- A concrete in-progress row for task t1. -/
def rowInProg : DbRow := { poolRow 1 with status := "in_progress", updated_at := 1 }

/-- A pre-existing initialized row whose display data and status later input
disagrees with. -/
def rowOld : DbRow :=
  { task_id := "svc_11111", service_id := "svc", zip_code := "11111",
    city := some "Oldtown", state := some "TS", status := "published",
    error_message := none, published_url := some "http://x/old",
    created_at := 0, updated_at := 0, completed_at := none }

/-- An initialization record for the same natural key as `rowOld` but with
different display data and status. -/
def recNew : TaskInsertRecord :=
  { task_id := "svc_11111", service_id := "svc", zip_code := "11111",
    city := some "Newtown", state := some "TS", status := "pending" }

/-- An initialization record for a fresh natural key. -/
def recFresh : TaskInsertRecord :=
  { task_id := "svc_22222", service_id := "svc", zip_code := "22222",
    city := some "Newtown", state := some "TS", status := "pending" }

/-- A one-task JSON queue with the task pending. -/
def jq0 : JsonQueue :=
  [{ task_id := "t1", status := "pending", updated_at := 0, result := none }]

/-- A one-task JSON queue with the task already claimed. -/
def jq1 : JsonQueue :=
  [{ task_id := "t1", status := "in_progress", updated_at := 1, result := none }]

/-- A final-response text of a fully successful pipeline run. -/
def successText : String :=
  "Page for svc in 12345 successfully completed and published."

/-- The claimed ids of a ten-task batch. -/
def idsTen : List String :=
  ["t0", "t1", "t2", "t3", "t4", "t5", "t6", "t7", "t8", "t9"]

/-- Run outcomes for the ten-task batch: every run succeeds except the sixth
(index 5), whose stage collaborator raises. -/
def outsTen : List StageOutcome :=
  [.finalResponse "Task successfully completed",
   .finalResponse "Task successfully completed",
   .finalResponse "Task successfully completed",
   .finalResponse "Task successfully completed",
   .finalResponse "Task successfully completed",
   .raises "database unreachable",
   .finalResponse "Task successfully completed",
   .finalResponse "Task successfully completed",
   .finalResponse "Task successfully completed",
   .finalResponse "Task successfully completed"]

/-! Helper lemmas. -/

theorem persistChunk_length (ids : List String) (chunk : List TaskRunResult)
    (base : Nat) : (persistChunk ids chunk base).length = chunk.length := by
  simp [persistChunk]

theorem driverFlushLoop_length (ids : List String) (c n : Nat)
    (rest : List TaskRunResult) :
    ∀ inflight, (driverFlushLoop ids c n inflight rest).length =
      inflight.length + rest.length := by
  induction rest with
  | nil =>
    intro inflight
    simp [driverFlushLoop, persistChunk_length]
  | cons r rest ih =>
    intro inflight
    simp only [driverFlushLoop]
    by_cases h : c ≤ (inflight ++ [r]).length
    · rw [if_pos h]
      simp only [List.length_append, persistChunk_length, ih []]
      simp
      omega
    · rw [if_neg h]
      rw [ih (inflight ++ [r])]
      simp
      omega

/-- C5: for every application status the forward mapping is defined, and the
round trip through the persisted domain is the identity except for the single
documented lossy case `processing` to `in_progress`. Status: confirmed. -/
theorem C5_round_trip (s : TaskStatus) :
    fromPersisted (toPersisted s) =
      if s = .processing then .in_progress else s := by
  cases s <;> decide

/-- C6: the reverse mapping is a total function on all status strings, and a
string outside the recognized vocabulary maps to the application status
`error` rather than raising or being dropped. Status: confirmed. -/
theorem C6_unrecognized_to_error (s : String)
    (h : s ∉ recognizedDbStrings) : fromPersisted s = .error := by
  simp only [recognizedDbStrings, List.mem_cons, List.not_mem_nil, or_false,
    not_or] at h
  obtain ⟨h1, h2, h3, h4, h5, h6, h7, h8, h9, h10, h11, h12⟩ := h
  unfold fromPersisted dbToPythonStatusMap TaskStatus.ofValue
  split_ifs <;> simp_all

theorem C6_witness :
    "unknown_db_status" ∉ recognizedDbStrings ∧
      fromPersisted "unknown_db_status" = .error :=
  ⟨by decide, C6_unrecognized_to_error "unknown_db_status" (by decide)⟩

/-- C1 counterexample: the orchestrator's own claim path,
`OrchestratorAgent.get_next_pending_tasks`, claims by load-modify-save in
application code.  Worker B loads the file state `jq0` and saves (first
conjunct: the live file now holds t1 as `in_progress`); worker A, which also
loaded `jq0` before B's save, still returns t1 as claimed (second conjunct)
and its blind save overwrites the file — so a task that is not pending at
write time is returned as claimed, refuting the claim as stated for this
claim operation. -/
theorem C1_counterexample :
    ((getNextPendingTasks jq0 10 1).snd.map (fun t => (t.task_id, t.status)))
        = [("t1", "in_progress")] ∧
    ((getNextPendingTasks jq0 10 2).fst.map (fun t => t.task_id)) = ["t1"] := by
  decide

/-- C1 (amended): the storage-layer claimer
`QueueManager.mark_tasks_in_progress` is a single conditional update that
re-validates the pending condition at write time and returns exactly the rows
whose write applied: every returned row was transitioned to `in_progress` at
this call, every returned row corresponds to a row that was pending and among
the requested ids, and every requested pending row is returned.  (The
orchestrator's JSON-file claimer does not have this property; see the
counterexample.) Status: corrected. -/
theorem C1_storage_claim_exact (db : Db) (ids : List String) (now : Nat) :
    (∀ r ∈ (markTasksInProgress db ids now).fst,
        r.status = "in_progress" ∧ r.updated_at = now ∧
        ∃ r0 ∈ db, r0.task_id = r.task_id ∧ r0.status = "pending" ∧
          ids.contains r0.task_id = true) ∧
    (∀ r0 ∈ db, r0.status = "pending" → ids.contains r0.task_id = true →
        ∃ r ∈ (markTasksInProgress db ids now).fst,
          r.task_id = r0.task_id ∧ r.status = "in_progress") := by
  constructor
  · intro r hr
    simp only [markTasksInProgress, List.mem_map, List.mem_filter] at hr
    obtain ⟨r0, ⟨hr0db, hcond⟩, rfl⟩ := hr
    simp only [claimCondition, Bool.and_eq_true, beq_iff_eq] at hcond
    exact ⟨rfl, rfl, r0, hr0db, rfl, hcond.2, hcond.1⟩
  · intro r0 hr0 hpend hin
    refine ⟨claimUpdate now r0, ?_, rfl, rfl⟩
    simp only [markTasksInProgress, List.mem_map, List.mem_filter]
    refine ⟨r0, ⟨hr0, ?_⟩, rfl⟩
    simp only [claimCondition, Bool.and_eq_true, beq_iff_eq]
    exact ⟨hin, hpend⟩

theorem C1_witness :
    ∃ r ∈ (markTasksInProgress [poolRow 1] ["t1"] 7).fst,
      r.task_id = "t1" ∧ r.status = "in_progress" := by
  have h := (C1_storage_claim_exact [poolRow 1] ["t1"] 7).2 (poolRow 1)
    (by simp) (by decide) (by decide)
  obtain ⟨r, hmem, hid, hst⟩ := h
  exact ⟨r, hmem, by rw [hid]; decide, hst⟩

/-- C2 counterexample: against the fixed pool of 15 pending tasks, two
claimers with batch size 10 each select the same ten candidates (the
selection query is repeatable and unordered), and their conditional updates
serialize: the first claims all ten, the second claims none — the union of
the returned batches has 10 unique ids, not 15, so the pool is not covered
exactly once. -/
theorem C2_counterexample :
    pool15.length = 15 ∧
    (markTasksInProgress pool15 sel10 1).fst.length = 10 ∧
    (markTasksInProgress (markTasksInProgress pool15 sel10 1).snd sel10 2).fst.length
      = 0 := by
  decide

/-- C2 (amended): under concurrent claim calls serialized at the storage
layer (each `mark_tasks_in_progress` statement executes atomically), the
returned batches are pairwise disjoint — no task is ever claimed by two
workers — but the union may omit still-pending tasks when the claimers
selected overlapping candidates. Status: corrected. -/
theorem C2_serialized_claims_disjoint (db : Db) (ids1 ids2 : List String)
    (n1 n2 : Nat) :
    ∀ r1 ∈ (markTasksInProgress db ids1 n1).fst,
    ∀ r2 ∈ (markTasksInProgress (markTasksInProgress db ids1 n1).snd ids2 n2).fst,
      r1.task_id ≠ r2.task_id := by
  intro r1 h1 r2 h2 heq
  simp only [markTasksInProgress, List.mem_map, List.mem_filter] at h1 h2
  obtain ⟨s1, ⟨hs1db, hc1⟩, rfl⟩ := h1
  obtain ⟨s2, ⟨hs2db, hc2⟩, rfl⟩ := h2
  obtain ⟨s0, hs0db, hg⟩ := hs2db
  simp only [claimCondition, Bool.and_eq_true, beq_iff_eq] at hc1 hc2
  by_cases hcase : claimCondition ids1 s0 = true
  · rw [if_pos hcase] at hg
    rw [← hg] at hc2
    simp [claimUpdate] at hc2
  · rw [if_neg hcase] at hg
    rw [← hg] at hc2 heq
    simp only [claimUpdate] at heq
    apply hcase
    simp only [claimCondition, Bool.and_eq_true, beq_iff_eq]
    exact ⟨heq ▸ hc1.1, hc2.2⟩

theorem C2_witness : ("t1" : String) ≠ "t2" := by
  exact C2_serialized_claims_disjoint dbTwo ["t1"] ["t2"] 1 2
    (claimUpdate 1 (poolRow 1)) (by decide)
    (claimUpdate 2 (poolRow 2)) (by decide)

/-- C3: `process_task` contains every stage exception at the coordinator
boundary — an unexpected exception yields a returned result with status
`error` carrying the message instead of re-raising (the embedding of the
`try`/`except Exception` block is a total function into plain results); an
explicit stage failure (a final response without the success marker) yields
status `failed` carrying the failure message; and the batch driver runs to
completion over every claimed task, producing one status-persistence call per
task regardless of failures. Status: confirmed. -/
theorem C3_failure_containment (msg t : String) (ids : List String)
    (outs : List StageOutcome) (c : Nat)
    (hf : containsText (lowerString t) "successfully completed" = false) :
    processTask (.raises msg) =
      { status := "error", message := none, error := some msg } ∧
    processTask (.finalResponse t) =
      { status := "failed", message := some t, error := none } ∧
    (runBatchUpdates ids (outs.map processTask) c).length = outs.length := by
  refine ⟨rfl, ?_, ?_⟩
  · simp [processTask, hf]
  · rw [runBatchUpdates, driverFlushLoop_length]
    simp

theorem C3_witness :
    containsText (lowerString "Missing SEO research data for 12345")
        "successfully completed" = false ∧
    processTask (.raises "store unreachable") =
      { status := "error", message := none, error := some "store unreachable" } ∧
    processTask (.finalResponse "Missing SEO research data for 12345") =
      { status := "failed", message := some "Missing SEO research data for 12345",
        error := none } ∧
    (runBatchUpdates idsTen (outsTen.map processTask) 5).length = outsTen.length := by
  refine ⟨by decide, ?_⟩
  have h := C3_failure_containment "store unreachable"
    "Missing SEO research data for 12345" idsTen outsTen 5 (by decide)
  exact ⟨h.1, h.2.1, h.2.2⟩

/-- C4: the batch driver misattributes final statuses.  In a claimed batch of
ten tasks with the default concurrency cap of five, the second gathered chunk
(the runs of t5 through t9) is persisted against `pending_tasks[0..4]`: the
`error` of t5's run is written to t0 (second conjunct), no status is ever
persisted for t5 (third conjunct), although t5's own run result is `error`
(first conjunct).  The persisted status is therefore not the status returned
by that same task's pipeline run. Status: code_bug. -/
theorem C4_misattributed_persistence :
    (processTask (outsTen.getD 5 .noFinal)).status = "error" ∧
    runBatchUpdates idsTen (outsTen.map processTask) 5 =
      [("t0", "completed"), ("t1", "completed"), ("t2", "completed"),
       ("t3", "completed"), ("t4", "completed"),
       ("t0", "error"), ("t1", "completed"), ("t2", "completed"),
       ("t3", "completed"), ("t4", "completed")] ∧
    ((runBatchUpdates idsTen (outsTen.map processTask) 5).all
      (fun p => p.fst != "t5")) = true := by
  decide

theorem head?_filter_eq_find? {α : Type} (p : α → Bool) (l : List α) :
    (l.filter p).head? = l.find? p := by
  induction l with
  | nil => rfl
  | cons a l ih =>
    by_cases h : p a = true
    · simp [List.filter_cons, List.find?_cons, h]
    · simp only [List.filter_cons, List.find?_cons]
      rw [if_neg h]
      cases hpa : p a with
      | true => exact absurd hpa h
      | false => exact ih

/-- C7 counterexample: updating the existing task t1 to the terminal status
`published` returns the updated row with `completed_at` still null — the
`SET` clause of `update_task_status` never includes `completed_at`, so the
claim's "sets completed_at whenever the new status is terminal" fails. -/
theorem C7_counterexample :
    ((updateTaskStatus true [rowInProg] "t1" .published none
        (some "http://x/page") 5).fst.map
      (fun r => (r.status, r.completed_at))) = some ("published", none) := by
  decide

/-- C7 (amended): `update_task_status` is a single-row update keyed on the
task id: for an absent id it returns `none` ("not found") rather than a row;
for a present id it returns the first matching row with the persisted status
written, `updated_at` always bumped to the call time, `error_message` and
`published_url` overwritten exactly when provided — and `completed_at` left
untouched (it is never part of the update, even for the terminal statuses
published/failed/error). Status: corrected. -/
theorem C7_update_row (db : Db) (id : String) (s : TaskStatus)
    (em url : Option String) (now : Nat) :
    (db.find? (fun r => r.task_id == id) = none →
      (updateTaskStatus true db id s em url now).fst = none) ∧
    (∀ r0, db.find? (fun r => r.task_id == id) = some r0 →
      (updateTaskStatus true db id s em url now).fst =
        some { r0 with
               status := toPersisted s
               updated_at := now
               error_message := em.or r0.error_message
               published_url := url.or r0.published_url }) := by
  have hfst : (updateTaskStatus true db id s em url now).fst =
      (db.find? (fun r => r.task_id == id)).map
        (statusUpdateRow (toPersisted s) em url now) := by
    simp only [updateTaskStatus, Bool.not_true, Bool.false_eq_true, if_false,
      List.head?_map, head?_filter_eq_find?]
  constructor
  · intro h
    rw [hfst, h]
    rfl
  · intro r0 h
    rw [hfst, h]
    rfl

theorem C7_witness :
    (updateTaskStatus true ([] : Db) "t1" .published none none 3).fst = none ∧
    (updateTaskStatus true [rowInProg] "t1" .failed (some "boom") none 9).fst =
      some { rowInProg with
             status := toPersisted .failed
             updated_at := 9
             error_message := (some "boom").or rowInProg.error_message
             published_url := (none : Option String).or rowInProg.published_url } :=
  ⟨(C7_update_row [] "t1" .published none none 3).1 rfl,
   (C7_update_row [rowInProg] "t1" .failed (some "boom") none 9).2 rowInProg
     (by decide)⟩

theorem upsertStep_extends (now : Nat) (db : Db) (rec : TaskInsertRecord) :
    ∃ tail, upsertStep now db rec = db ++ tail := by
  unfold upsertStep
  by_cases h : db.any (fun r => r.task_id == rec.task_id) = true
  · exact ⟨[], by rw [if_pos h, List.append_nil]⟩
  · exact ⟨[newRowOfRecord rec now], by rw [if_neg h]⟩

theorem upsertTasks_extends (recs : List TaskInsertRecord) (db : Db)
    (now : Nat) : ∃ added, upsertTasks db recs now = db ++ added := by
  induction recs generalizing db with
  | nil => exact ⟨[], by simp [upsertTasks]⟩
  | cons rec recs ih =>
    obtain ⟨t, ht⟩ := upsertStep_extends now db rec
    obtain ⟨a, ha⟩ := ih (upsertStep now db rec)
    refine ⟨t ++ a, ?_⟩
    simp only [upsertTasks, List.foldl_cons] at ha ⊢
    rw [ha, ht, List.append_assoc]

theorem dbHasId_append (db tail : Db) (id : String) :
    dbHasId (db ++ tail) id = (dbHasId db id || dbHasId tail id) := by
  simp [dbHasId, List.any_append]

theorem dbHasId_upsertStep_self (now : Nat) (db : Db)
    (rec : TaskInsertRecord) :
    dbHasId (upsertStep now db rec) rec.task_id = true := by
  unfold upsertStep
  by_cases h : db.any (fun r => r.task_id == rec.task_id) = true
  · rw [if_pos h]
    exact h
  · rw [if_neg h]
    simp [dbHasId, List.any_append, newRowOfRecord]

theorem dbHasId_upsertStep_mono (now : Nat) (db : Db)
    (rec : TaskInsertRecord) (id : String) (h : dbHasId db id = true) :
    dbHasId (upsertStep now db rec) id = true := by
  obtain ⟨t, ht⟩ := upsertStep_extends now db rec
  rw [ht, dbHasId_append, h, Bool.true_or]

theorem dbHasId_upsertTasks_mono (recs : List TaskInsertRecord) (db : Db)
    (now : Nat) (id : String) (h : dbHasId db id = true) :
    dbHasId (upsertTasks db recs now) id = true := by
  induction recs generalizing db with
  | nil => simpa [upsertTasks] using h
  | cons rec recs ih =>
    simp only [upsertTasks, List.foldl_cons] at ih ⊢
    exact ih _ (dbHasId_upsertStep_mono now db rec id h)

theorem upsertTasks_all_present (recs : List TaskInsertRecord) (db : Db)
    (now : Nat) :
    ∀ rec ∈ recs, dbHasId (upsertTasks db recs now) rec.task_id = true := by
  induction recs generalizing db with
  | nil =>
    intro rec h
    exact absurd h (List.not_mem_nil rec)
  | cons r recs ih =>
    intro rec hmem
    rcases List.mem_cons.mp hmem with heq | htail
    · subst heq
      simp only [upsertTasks, List.foldl_cons]
      exact dbHasId_upsertTasks_mono recs _ now _
        (dbHasId_upsertStep_self now db rec)
    · simp only [upsertTasks, List.foldl_cons]
      exact ih _ rec htail

theorem upsertTasks_noop (recs : List TaskInsertRecord) (db : Db) (now : Nat)
    (h : ∀ rec ∈ recs, dbHasId db rec.task_id = true) :
    upsertTasks db recs now = db := by
  induction recs generalizing db with
  | nil => simp [upsertTasks]
  | cons r recs ih =>
    have hr : dbHasId db r.task_id = true := h r (List.mem_cons_self r recs)
    have hstep : upsertStep now db r = db := by
      unfold upsertStep
      unfold dbHasId at hr
      rw [if_pos hr]
    simp only [upsertTasks, List.foldl_cons, hstep]
    exact ih db (fun rec hm => h rec (List.mem_cons_of_mem r hm))

theorem notMem_of_dbHasId_false (db : Db) (id : String)
    (h : dbHasId db id = false) : id ∉ db.map (fun r => r.task_id) := by
  intro hmem
  simp only [List.mem_map] at hmem
  obtain ⟨r, hr, hid⟩ := hmem
  have htrue : dbHasId db id = true := by
    simp only [dbHasId, List.any_eq_true]
    exact ⟨r, hr, by simp [hid]⟩
  rw [htrue] at h
  exact Bool.noConfusion h

theorem upsertStep_nodup (now : Nat) (db : Db) (rec : TaskInsertRecord)
    (h : (db.map (fun r => r.task_id)).Nodup) :
    ((upsertStep now db rec).map (fun r => r.task_id)).Nodup := by
  unfold upsertStep
  by_cases hc : db.any (fun r => r.task_id == rec.task_id) = true
  · rw [if_pos hc]
    exact h
  · rw [if_neg hc]
    have hfalse : dbHasId db rec.task_id = false := by
      unfold dbHasId
      exact Bool.not_eq_true _ ▸ hc
    have hnot := notMem_of_dbHasId_false db rec.task_id hfalse
    have hperm := List.perm_append_singleton
      ((newRowOfRecord rec now).task_id) (db.map (fun r => r.task_id))
    rw [List.map_append]
    simp only [List.map_cons, List.map_nil]
    exact hperm.nodup_iff.mpr (List.nodup_cons.mpr ⟨hnot, h⟩)

theorem upsertTasks_nodup (recs : List TaskInsertRecord) (db : Db)
    (now : Nat) (h : (db.map (fun r => r.task_id)).Nodup) :
    ((upsertTasks db recs now).map (fun r => r.task_id)).Nodup := by
  induction recs generalizing db with
  | nil => simpa [upsertTasks] using h
  | cons rec recs ih =>
    simp only [upsertTasks, List.foldl_cons] at ih ⊢
    exact ih _ (upsertStep_nodup now db rec h)

/-- C8 counterexample: the initialization insert is `ON CONFLICT (task_id)
DO NOTHING` — re-running it with input whose display data (`Newtown`) and
status (`pending`) differ from the stored row (`Oldtown`, `published`) leaves
the existing row entirely unchanged, so the claim's "mutable fields (display
data, status) are updated to the new input values" fails. -/
theorem C8_counterexample : upsertTasks [rowOld] [recNew] 9 = [rowOld] := by
  decide

/-- C8 (amended): the bulk initialization upsert is idempotent with respect
to row identity — re-running it with identical input changes nothing, the
original rows (including their `created_at`) are preserved verbatim as a
prefix, and distinct task ids stay distinct — but for existing natural keys
it updates nothing at all (`DO NOTHING`), rather than refreshing mutable
fields. Status: corrected. -/
theorem C8_upsert_idempotent (db : Db) (recs : List TaskInsertRecord)
    (now now2 : Nat) :
    upsertTasks (upsertTasks db recs now) recs now2 = upsertTasks db recs now ∧
    (∃ added, upsertTasks db recs now = db ++ added) ∧
    ((db.map (fun r => r.task_id)).Nodup →
      ((upsertTasks db recs now).map (fun r => r.task_id)).Nodup) := by
  refine ⟨?_, upsertTasks_extends recs db now,
    fun h => upsertTasks_nodup recs db now h⟩
  exact upsertTasks_noop recs _ now2
    (fun rec hm => upsertTasks_all_present recs db now rec hm)

theorem C8_witness :
    upsertTasks (upsertTasks [rowOld] [recFresh] 4) [recFresh] 8 =
      upsertTasks [rowOld] [recFresh] 4 ∧
    ((upsertTasks [rowOld] [recFresh] 4).map (fun r => r.task_id)).Nodup :=
  ⟨(C8_upsert_idempotent [rowOld] [recFresh] 4 8).1,
   (C8_upsert_idempotent [rowOld] [recFresh] 4 8).2.2 (by decide)⟩

/-- C9: violated on the coordinator's success path.  A pipeline run whose
final response carries the success marker yields the run-result status
`completed` (first conjunct); the batch driver persists that string verbatim
as the task's status in the queue (second conjunct); but `completed` is not a
member of the application status vocabulary — the `TaskStatus` constructor
rejects it (third conjunct).  The persisted status of a successfully
processed task is therefore not a valid vocabulary member.
Status: code_bug. -/
theorem C9_invalid_status_persisted :
    (processTask (.finalResponse successText)).status = "completed" ∧
    ((updateTaskStatusJson 3 jq1 "t1"
        (processTask (.finalResponse successText)).status
        (some "result")).map (fun t => t.status)) = ["completed"] ∧
    TaskStatus.ofValue "completed" = none := by
  decide

/-- C10 counterexample: the read path returns `none` both when the store is
unreachable (first conjunct, a table that does contain t1) and when the task
is absent (second conjunct); the two results are equal (third conjunct), so
the caller cannot distinguish the "unavailable" case from "not found" — there
is no distinguished unavailable result. -/
theorem C10_counterexample :
    getTaskById false [rowInProg] "t1" = none ∧
    getTaskById true ([] : Db) "t1" = none ∧
    getTaskById false [rowInProg] "t1" = getTaskById true ([] : Db) "t1" := by
  decide

/-- C10 (amended): the store's read paths never raise — both connectivity
failure and absence are returned as values: a failed connection yields `none`
from `get_task_by_id` and `[]` from `get_tasks_by_status`, and an absent task
id yields `none` — but these are the same values, not a distinguished
"unavailable" result. Status: corrected. -/
theorem C10_reads_never_raise (db : Db) (id : String) (s : TaskStatus)
    (lim : Option Nat) :
    getTaskById false db id = none ∧
    getTasksByStatus false db s lim = [] ∧
    ((∀ r ∈ db, r.task_id ≠ id) → getTaskById true db id = none) := by
  refine ⟨rfl, rfl, fun h => ?_⟩
  simp only [getTaskById, Bool.not_true, Bool.false_eq_true, if_false]
  rw [List.find?_eq_none.mpr]
  · rfl
  · intro r hr
    simp only [beq_iff_eq]
    exact h r hr

theorem C10_witness :
    getTaskById false [rowInProg] "zzz" = none ∧
    getTasksByStatus false [rowInProg] .pending none = [] ∧
    getTaskById true [rowInProg] "zzz" = none :=
  ⟨(C10_reads_never_raise [rowInProg] "zzz" .pending none).1,
   (C10_reads_never_raise [rowInProg] "zzz" .pending none).2.1,
   (C10_reads_never_raise [rowInProg] "zzz" .pending none).2.2 (by decide)⟩

end WebsiteExpander
